import Mathlib

/-!
Shallow embedding of the NetflixRecommendation repository core
(src/src/graph.py, src/src/scoring.py, src/app.py, src/web/app.py),
with theorems settling the frozen claims about its specification.

Conventions of the embedding:
* Python floats (ratings, similarity scores) are modelled as exact
  rationals; Python ints as Lean integers.
* A networkx Graph is a list of named nodes with attribute records plus a
  list of weighted undirected edges, in insertion order.
* Python dicts are association lists with insert-or-overwrite semantics
  (insertion order preserved, as in CPython).
* Python sets are Finsets (iteration-order independent computations only
  are carried over: intersections, unions, cardinalities, sums).
* Fallible code (KeyError / ValueError / NetworkXError on a missing node)
  returns Except; a raised exception aborts the surrounding loop exactly
  as the Except monad short-circuits.
-/

/-- Python list slicing l[:n]: for nonnegative n the first n elements,
for negative n all but the last |n| elements (clamped at the empty list). -/
def pyTake (n : Int) (l : List α) : List α :=
  if 0 ≤ n then l.take n.toNat else l.take ((l.length : Int) + n).toNat

/-- pandas Series.unique / first-occurrence deduplication, preserving order. -/
def pyUnique [DecidableEq α] (l : List α) : List α :=
  l.foldl (fun acc x => if x ∈ acc then acc else acc ++ [x]) []

/-- Python dict assignment d[k] = v: overwrite in place if the key exists,
append otherwise (CPython dicts preserve insertion order). -/
def dictInsert [DecidableEq α] (d : List (α × β)) (k : α) (v : β) : List (α × β) :=
  if d.any (fun p => decide (p.1 = k)) then
    d.map (fun p => if p.1 = k then (k, v) else p)
  else d ++ [(k, v)]

/-- Python dict lookup d.get(k). -/
def dictGet [DecidableEq α] (d : List (α × β)) (k : α) : Option β :=
  (d.find? (fun p => decide (p.1 = k))).map (fun p => p.2)

/-- One row of the ratings DataFrame: (userId, movieId, rating). -/
structure RatingRec where
  userId : Int
  movieId : Int
  rating : ℚ
  deriving Repr, DecidableEq

/-- One row of the movies DataFrame: (movieId, title, genres).
genres is None when the column is absent or the cell is empty. -/
structure MovieRec where
  movieId : Int
  title : Option String
  genres : Option String
  deriving Repr, DecidableEq

/-- networkx node attribute dictionary: each field is None when the
attribute was never set (dict.get returns None). -/
structure NodeAttrs where
  bipartite : Option String
  userId : Option Int
  movieId : Option Int
  title : Option String
  genres : Option String
  deriving Repr, DecidableEq

/-- The attribute dictionary of a node created implicitly by add_edge. -/
def emptyAttrs : NodeAttrs := ⟨none, none, none, none, none⟩

/-- A networkx undirected Graph: nodes with attributes and weighted edges,
both in insertion order.  Node names are unique in every graph the code
builds; edges are unordered pairs stored with the orientation of their
last add_edge call. -/
structure Graph where
  nodes : List (String × NodeAttrs)
  edges : List (String × String × ℚ)
  deriving Repr, DecidableEq

/-- Attribute record of a node, None when the node is absent (the node
list is a dict keyed by node name). -/
def findNode (g : Graph) (n : String) : Option NodeAttrs :=
  dictGet g.nodes n

/-- Python membership test `n in G`. -/
def memG (g : Graph) (n : String) : Bool :=
  (findNode g n).isSome

/-- networkx G.add_node(n, **attrs): replace the attributes if the node
exists, append a fresh node otherwise. -/
def addNode (g : Graph) (n : String) (a : NodeAttrs) : Graph :=
  { g with nodes := dictInsert g.nodes n a }

/-- networkx implicit node creation inside add_edge: a missing endpoint is
added with an empty attribute dictionary. -/
def ensureNode (g : Graph) (n : String) : Graph :=
  if memG g n then g else { g with nodes := g.nodes ++ [(n, emptyAttrs)] }

/-- Whether a stored edge is the unordered pair {u, v}. -/
def sameEdge (u v : String) (e : String × String × ℚ) : Bool :=
  (decide (e.1 = u) && decide (e.2.1 = v)) || (decide (e.1 = v) && decide (e.2.1 = u))

/-- networkx G.add_edge(u, v, weight=w): create missing endpoints, then
overwrite the weight of an existing {u, v} edge or append a new edge. -/
def addEdge (g : Graph) (u v : String) (w : ℚ) : Graph :=
  let g1 := ensureNode (ensureNode g u) v
  if g1.edges.any (sameEdge u v) then
    { g1 with edges := g1.edges.map (fun e => if sameEdge u v e then (u, v, w) else e) }
  else
    { g1 with edges := g1.edges ++ [(u, v, w)] }

/-- networkx G.neighbors(n) as a list (adjacency in edge-insertion order). -/
def neighborsOf (g : Graph) (n : String) : List String :=
  g.edges.filterMap (fun e =>
    if e.1 = n then some e.2.1 else if e.2.1 = n then some e.1 else none)

/-- G.nodes[n].get("bipartite"): None when the node is absent or the
attribute was never set. -/
def bipOf (g : Graph) (n : String) : Option String :=
  (findNode g n).bind (fun a => a.bipartite)

/-- Exceptions raised by the embedded code. -/
inductive PErr where
  | keyError : String → PErr
  | valueError : String → PErr
  deriving Repr, DecidableEq

/-- G.nodes[n]: raises KeyError when the node is absent. -/
def nodeGetE (g : Graph) (n : String) : Except PErr NodeAttrs :=
  match findNode g n with
  | some a => .ok a
  | none => .error (.keyError "node not in graph")

/-- Node name f"u_{uid}" used by build_bipartite_graph. -/
def userNodeName (uid : Int) : String := "u_" ++ toString uid

/-- Node name f"m_{mid}" used by build_bipartite_graph. -/
def movieNodeName (mid : Int) : String := "m_" ++ toString mid

/-- int(node.split("_")[1]) as used when building the id mappings. -/
def nodeIdNum (n : String) : Int :=
  (((n.splitOn "_").getD 1 "").toInt?).getD 0

/-- The four identifier mappings returned by build_bipartite_graph. -/
structure Mappings where
  user_id_to_node : List (Int × String)
  node_to_user_id : List (String × Int)
  movie_id_to_node : List (Int × String)
  node_to_movie_id : List (String × Int)
  deriving Repr, DecidableEq

/-- Attributes of a user node added by build_bipartite_graph. -/
def userAttrs (uid : Int) : NodeAttrs :=
  ⟨some "user", some uid, none, none, none⟩

/-- Attributes of a movie node added by build_bipartite_graph: the title
and genres of the first catalog row with this movie id, when present. -/
def movieAttrs (movies : List MovieRec) (mid : Int) : NodeAttrs :=
  let row := movies.find? (fun r => decide (r.movieId = mid))
  ⟨some "movie", none, some mid, row.bind (fun r => r.title),
    row.bind (fun r => r.genres)⟩

/-- src/src/graph.py build_bipartite_graph: one user node per distinct
userId of the ratings table, one movie node per distinct movieId of the
movies table (title and genres attached from the first matching catalog
row), then one edge per rating at or above the threshold, weighted by the
rating.  The mappings are decoded from the node names afterwards. -/
def build_bipartite_graph (ratings : List RatingRec) (movies : List MovieRec)
    (threshold : ℚ) : Graph × Mappings :=
  let g0 : Graph := ⟨[], []⟩
  let g1 := (pyUnique (ratings.map (fun r => r.userId))).foldl
    (fun g uid => addNode g (userNodeName uid) (userAttrs uid)) g0
  let g2 := (pyUnique (movies.map (fun r => r.movieId))).foldl
    (fun g mid => addNode g (movieNodeName mid) (movieAttrs movies mid)) g1
  let positive := ratings.filter (fun r => decide (threshold ≤ r.rating))
  let g3 := positive.foldl
    (fun g r => addEdge g (userNodeName r.userId) (movieNodeName r.movieId) r.rating) g2
  let userPairs := g3.nodes.filterMap (fun p =>
    if p.2.bipartite = some "user" then some (nodeIdNum p.1, p.1) else none)
  let moviePairs := g3.nodes.filterMap (fun p =>
    if p.2.bipartite = some "movie" then some (nodeIdNum p.1, p.1) else none)
  (g3,
    { user_id_to_node := userPairs
      node_to_user_id := userPairs.map (fun p => (p.2, p.1))
      movie_id_to_node := moviePairs
      node_to_movie_id := moviePairs.map (fun p => (p.2, p.1)) })

/-- src/src/graph.py validate_graph: walk all edges and raise
AssertionError on the first edge whose two endpoints carry equal
bipartite attributes (both "user", both "movie", or both missing). -/
def validate_graph (g : Graph) : Except String Unit :=
  match g.edges.find? (fun e => decide (bipOf g e.1 = bipOf g e.2.1)) with
  | some _ => .error "Edge between same partition"
  | none => .ok ()

/-- The MOVIE_NODES list of the applications: nodes whose bipartite
attribute is "movie", in node-insertion order. -/
def movieNodesOf (g : Graph) : List String :=
  g.nodes.filterMap (fun p => if p.2.bipartite = some "movie" then some p.1 else none)

/-- The user-partition neighbor set of a node (likers of a movie node). -/
def likersOf (g : Graph) (m : String) : Finset String :=
  ((neighborsOf g m).filter (fun n => decide (bipOf g n = some "user"))).toFinset

/-- src/src/graph.py precompute_movie_likers: movie node to liker set. -/
def precompute_movie_likers (g : Graph) : List (String × Finset String) :=
  (movieNodesOf g).map (fun m => (m, likersOf g m))

/-- src/src/graph.py precompute_movie_genres: movie node to genre tag set
(split of the genres string on the pipe character; empty set when the
attribute is missing or the string is empty). -/
def precompute_movie_genres (g : Graph) : List (String × Finset String) :=
  (movieNodesOf g).map (fun m =>
    (m, match (findNode g m).bind (fun a => a.genres) with
        | some s => if s = "" then (∅ : Finset String) else (s.splitOn "|").toFinset
        | none => (∅ : Finset String)))

/-- src/src/graph.py precompute_ratings_lookup: userId to the dict from
movieId to rating built from that user rows (a repeated movieId
overwrites, dict(zip(..)) semantics). -/
def precompute_ratings_lookup (ratings : List RatingRec) : List (Int × List (Int × ℚ)) :=
  (pyUnique (ratings.map (fun r => r.userId))).map (fun uid =>
    (uid, (ratings.filter (fun r => decide (r.userId = uid))).foldl
      (fun d r => dictInsert d r.movieId r.rating) []))

/-- Users at shortest-path distance exactly 2 from u that carry the
bipartite attribute "user": the nodes n with n different from u, not
adjacent to u, and sharing a neighbor with u.  This is the set computed by
nx.single_source_shortest_path_length(G, source=u, cutoff=2) restricted to
distance 2. -/
def users_2hop (g : Graph) (u : String) : Finset String :=
  ((g.nodes.map (fun p => p.1)).filter (fun n =>
    decide (bipOf g n = some "user") && !(decide (n = u)) &&
    !((neighborsOf g u).contains n) &&
    (neighborsOf g u).any (fun w => (neighborsOf g w).contains n))).toFinset

/-- src/src/scoring.py jaccard_2hop_score (default-argument path): raises
KeyError when either node is absent, otherwise |U ∩ L| / |U ∪ L| over the
2-hop user set U and the liker set L, with 0 for an empty union.  The
union size is computed as |U| + |L| - |U ∩ L| as in the source. -/
def jaccard_2hop_score (user_node movie_node : String) (g : Graph) : Except PErr ℚ :=
  if !(memG g user_node) || !(memG g movie_node) then
    .error (.keyError "user_node or movie_node not in graph")
  else
    let U := users_2hop g user_node
    let L := likersOf g movie_node
    let inter := U ∩ L
    let unionSize := U.card + L.card - inter.card
    if unionSize = 0 then .ok 0 else .ok ((inter.card : ℚ) / (unionSize : ℚ))

/-- src/src/scoring.py common_neighbors_count (default-argument path):
raises KeyError when either node is absent, otherwise |U ∩ L|. -/
def common_neighbors_count (user_node movie_node : String) (g : Graph) : Except PErr ℕ :=
  if !(memG g user_node) || !(memG g movie_node) then
    .error (.keyError "user_node or movie_node not in graph")
  else
    .ok ((users_2hop g user_node ∩ likersOf g movie_node).card)

/-- src/src/scoring.py score: lowercase the method name, dispatch to
jaccard for "jaccard" and to common neighbors (cast to float) for "cn" or
"common_neighbors", and raise ValueError for every other method. -/
def score (user_node movie_node : String) (g : Graph) (method : String) : Except PErr ℚ :=
  let m := method.toLower
  if m = "jaccard" then jaccard_2hop_score user_node movie_node g
  else if m = "cn" ∨ m = "common_neighbors" then
    (common_neighbors_count user_node movie_node g).map (fun c => (c : ℚ))
  else .error (.valueError "method must be jaccard or cn/common_neighbors")

/-- Value stored for one candidate by batch_score: 0.0 for a candidate
absent from the graph, otherwise the jaccard or common-neighbors score
against the hoisted 2-hop user set U. -/
def batchVal (g : Graph) (U : Finset String) (method : String) (m : String) : ℚ :=
  if !(memG g m) then 0
  else
    let L := likersOf g m
    let inter := U ∩ L
    if method.toLower = "jaccard" then
      let unionSize := U.card + L.card - inter.card
      if 0 < unionSize then (inter.card : ℚ) / (unionSize : ℚ) else 0
    else (inter.card : ℚ)

/-- src/src/scoring.py batch_score: raises KeyError when the user node is
absent; hoists the 2-hop user set once; an absent candidate is scored 0.0
instead of raising; otherwise jaccard or common-neighbors per the method
string ("jaccard" after lowercasing selects jaccard, anything else counts
common neighbors).  The scores dict is filled candidate by candidate. -/
def batch_score (user_node : String) (candidate_movies : List String) (g : Graph)
    (method : String) : Except PErr (List (String × ℚ)) :=
  if !(memG g user_node) then .error (.keyError "user_node not in graph")
  else
    let U := users_2hop g user_node
    .ok (candidate_movies.foldl (fun d m => dictInsert d m (batchVal g U method m)) [])

instance {ε α : Type} [DecidableEq ε] [DecidableEq α] : DecidableEq (Except ε α) := fun a b =>
  match a, b with
  | .ok x, .ok y => if h : x = y then .isTrue (by rw [h]) else .isFalse (by simp [h])
  | .error x, .error y => if h : x = y then .isTrue (by rw [h]) else .isFalse (by simp [h])
  | .ok _, .error _ => .isFalse (by simp)
  | .error _, .ok _ => .isFalse (by simp)

/-- A Python for-loop that may `continue` (body yields none), append one
record (body yields some), or raise (body yields an error, aborting the
whole loop as the exception propagates). -/
def exFilterMapM (f : α → Except PErr (Option β)) : List α → Except PErr (List β)
  | [] => .ok []
  | a :: l =>
    match f a with
    | .error e => .error e
    | .ok none => exFilterMapM f l
    | .ok (some b) => (exFilterMapM f l).map (fun bs => b :: bs)

/-- Result record of get_recommendations_for_user_node (src/app.py). -/
structure RecU where
  movie_node : String
  movie_id : Option Int
  title : Option String
  genres : Option String
  jaccard : ℚ
  common_2hop : ℕ
  avg_rating : Option ℚ
  deriving Repr, DecidableEq

/-- Result record of get_recommendations_for_liked_movies (src/app.py and
src/web/app.py): jaccard is None when the algorithm is not "jaccard". -/
structure RecL where
  movie_node : String
  movie_id : Option Int
  title : Option String
  genres : Option String
  jaccard : Option ℚ
  common_2hop : ℕ
  avg_rating : Option ℚ
  score : ℚ
  deriving Repr, DecidableEq

/-- The module-level state both Flask applications build at startup:
the graph, MOVIE_NODES, the two mapping dicts the entry points read,
the three caches, and the unfiltered ratings DataFrame. -/
structure Env where
  G : Graph
  movieNodes : List String
  nodeToUserId : List (String × Int)
  nodeToMovieId : List (String × Int)
  likersCache : List (String × Finset String)
  genresCache : List (String × Finset String)
  ratingsLookup : List (Int × List (Int × ℚ))
  ratingsDF : List RatingRec
  deriving DecidableEq

/-- Startup sequence of src/app.py (loading and the external
user-downsampling policy excluded): build the graph from the filtered
ratings and the catalog at threshold 3.5, then derive MOVIE_NODES, the
mappings and the three caches; RATINGS_DF stays unfiltered. -/
def mkEnv (ratingsDF ratingsFiltered : List RatingRec) (movies : List MovieRec) : Env :=
  let built := build_bipartite_graph ratingsFiltered movies ((7 : ℚ)/2)
  { G := built.1
    movieNodes := movieNodesOf built.1
    nodeToUserId := built.2.node_to_user_id
    nodeToMovieId := built.2.node_to_movie_id
    likersCache := precompute_movie_likers built.1
    genresCache := precompute_movie_genres built.1
    ratingsLookup := precompute_ratings_lookup ratingsDF
    ratingsDF := ratingsDF }

/-- Truthiness test `if genre_filter and genre_filter != "All"`. -/
def genreActive : Option String → Bool
  | none => false
  | some s => !(decide (s = "All")) && !(decide (s = ""))

/-- Python substring test `needle in hay`. -/
def substrB (needle hay : String) : Bool :=
  decide (needle.data <:+: hay.data)

/-- MAPPINGS["node_to_user_id"].get(u). -/
def uidOf (env : Env) (u : String) : Option Int :=
  dictGet env.nodeToUserId u

/-- Mean of the ratings of RATINGS_DF rows whose movieId is mid and whose
userId is one of the supporter ids (the decoded user ids of the supporter
nodes; nodes without a mapping decode to None and match no row); None when
no row matches.  Shared by the user entry point of src/app.py and the
liked entry point of src/web/app.py. -/
def avgFromDF (env : Env) (mid : Int) (supporters : Finset String) : Option ℚ :=
  let rows := env.ratingsDF.filter (fun r =>
    decide (r.movieId = mid) && decide (∃ u ∈ supporters, uidOf env u = some r.userId))
  if rows.isEmpty then none
  else some ((rows.map (fun r => r.rating)).sum / (rows.length : ℚ))

/-- The seen-movie set of a user: movie-partition neighbors in the graph. -/
def seenMovies (env : Env) (user_node : String) : Finset String :=
  ((neighborsOf env.G user_node).filter (fun n =>
    decide (bipOf env.G n = some "movie"))).toFinset

/-- Candidate filter of get_recommendations_for_user_node: drop seen
movies; with an active genre filter, read the genres attribute from the
graph (raising KeyError on a node missing from it) and drop candidates
whose genres string is falsy or does not contain the filter as a
substring. -/
def candBodyU (env : Env) (seen : Finset String) (genre_filter : Option String)
    (m : String) : Except PErr (Option String) :=
  if m ∈ seen then .ok none
  else if genreActive genre_filter then do
    let attrs ← nodeGetE env.G m
    match attrs.genres with
    | none => pure none
    | some gs =>
      if gs = "" then pure none
      else if substrB (genre_filter.getD "") gs then pure (some m) else pure none
  else .ok (some m)

/-- Loop body of get_recommendations_for_user_node: jaccard score (raising
KeyError on a node missing from the graph), cache-backed likers,
supporters as the intersection with the hoisted 2-hop user set, average
supporter rating from RATINGS_DF, then the result record. -/
def bodyU (env : Env) (user_node : String) (twoHop : Finset String)
    (m : String) : Except PErr (Option RecU) := do
  let jacc ← jaccard_2hop_score user_node m env.G
  let likers := (dictGet env.likersCache m).getD ∅
  let supporters := twoHop ∩ likers
  let movie_id := dictGet env.nodeToMovieId m
  let avg : Option ℚ :=
    match movie_id with
    | some mid => if supporters = ∅ then none else avgFromDF env mid supporters
    | none => none
  let attrs ← nodeGetE env.G m
  pure (some ⟨m, movie_id, attrs.title, attrs.genres, jacc, supporters.card, avg⟩)

/-- Sort ordering of the user entry point: ascending in the Python key
(-jaccard, -common_2hop), i.e. jaccard descending with common-neighbor
count as tie-break, stable. -/
def leU (a b : RecU) : Bool :=
  decide (b.jaccard < a.jaccard ∨ (a.jaccard = b.jaccard ∧ b.common_2hop ≤ a.common_2hop))

/-- src/app.py get_recommendations_for_user_node: seen-movie exclusion,
optional genre filter, hoisted 2-hop user set, per-candidate scoring,
sort by (jaccard, common_2hop) descending, then the top_n slice.
Iterating G.neighbors of a node absent from the graph raises. -/
def get_recommendations_for_user_node (env : Env) (user_node : String)
    (top_n : Int) (genre_filter : Option String) : Except PErr (List RecU) := do
  let _ ← nodeGetE env.G user_node
  let seen := seenMovies env user_node
  let candidates ← exFilterMapM (candBodyU env seen genre_filter) env.movieNodes
  let twoHop := users_2hop env.G user_node
  let results ← exFilterMapM (bodyU env user_node twoHop) candidates
  pure (pyTake top_n (results.mergeSort leU))

/-- Liked-movie nodes of the liked entry point of src/app.py: ids whose
node name is a key of MOVIE_LIKERS_CACHE, kept in input order. -/
def selectedNodesApp (env : Env) (liked_movie_ids : List Int) : List String :=
  liked_movie_ids.filterMap (fun mid =>
    let n := movieNodeName mid
    if (dictGet env.likersCache n).isSome then some n else none)

/-- Reference user set of the liked entry point of src/app.py: union of
the cached liker sets of the selected movie nodes. -/
def likedUserSet (env : Env) (liked_movie_ids : List Int) : Finset String :=
  (selectedNodesApp env liked_movie_ids).foldl
    (fun s n => s ∪ (dictGet env.likersCache n).getD ∅) ∅

/-- Truthiness of `if movie_id and intersection` for the id part:
None and 0 are falsy. -/
def movieIdTruthy : Option Int → Bool
  | none => false
  | some v => !(decide (v = 0))

/-- RATINGS_LOOKUP chain of src/app.py: decode the supporter node to its
user id, then look the (user, movie) rating up in the nested dict; None
as soon as a step is missing. -/
def ratingViaLookup (env : Env) (mid : Int) (u : String) : Option ℚ :=
  match uidOf env u with
  | none => none
  | some uid =>
    match dictGet env.ratingsLookup uid with
    | none => none
    | some userMap => dictGet userMap mid

/-- Per-(user, movie) average over the intersection members that have a
cached rating, as computed by the liked entry point of src/app.py. -/
def avgFromLookup (env : Env) (mid : Int) (inter : Finset String) : Option ℚ :=
  let fs := inter.filter (fun u => (ratingViaLookup env mid u).isSome)
  if fs.card = 0 then none
  else some ((Finset.sum fs (fun u => (ratingViaLookup env mid u).getD 0)) / (fs.card : ℚ))

/-- The rating-floor skip `rating_limit > 0.0 and (avg_rating is None or
avg_rating < rating_limit)`. -/
def ratingLimitSkip (rating_limit : ℚ) : Option ℚ → Bool
  | none => decide (0 < rating_limit)
  | some a => decide (0 < rating_limit) && decide (a < rating_limit)

/-- Loop body of the liked entry point of src/app.py: cached likers,
intersection with the reference user set, empty intersections skipped
outright, cn or jaccard score, cache-backed average rating guarded by the
truthiness of movie_id, the rating-floor skip, optional rating
reweighting, then the record (whose title/genres lookup raises KeyError
when the node is missing from the graph). -/
def bodyL (env : Env) (user_set : Finset String) (rating_limit : ℚ)
    (algorithm : String) (prioritize_rating : Bool) (m : String) :
    Except PErr (Option RecL) :=
  let likers := (dictGet env.likersCache m).getD ∅
  let inter := user_set ∩ likers
  if inter = ∅ then .ok none
  else
    let sc : ℚ :=
      if algorithm = "cn" then (inter.card : ℚ)
      else
        let unionSize := user_set.card + likers.card - inter.card
        if 0 < unionSize then (inter.card : ℚ) / (unionSize : ℚ) else 0
    let movie_id := dictGet env.nodeToMovieId m
    let avg : Option ℚ :=
      if movieIdTruthy movie_id then avgFromLookup env (movie_id.getD 0) inter else none
    if ratingLimitSkip rating_limit avg then .ok none
    else
      (nodeGetE env.G m).map (fun attrs =>
        let final : ℚ :=
          if prioritize_rating then
            match avg with
            | some a => sc * (a / 5)
            | none => sc
          else sc
        some ⟨m, movie_id, attrs.title, attrs.genres,
          (if algorithm = "jaccard" then some sc else none), inter.card, avg, final⟩)

/-- Sort ordering of both liked entry points: ascending in the Python key
-score, i.e. final score descending, stable. -/
def leL (a b : RecL) : Bool :=
  decide (b.score ≤ a.score)

/-- src/app.py get_recommendations_for_liked_movies (the optimized
variant): select liked ids present in the likers cache, take the union of
their liker sets, return [] immediately when it is empty, filter
candidates (genre pre-filter through the genres cache), score and filter
per candidate through bodyL, sort by final score descending, slice. -/
def get_recommendations_for_liked_movies (env : Env) (liked_movie_ids : List Int)
    (top_n : Int) (genre_filter : Option String) (rating_limit : ℚ)
    (algorithm : String) (prioritize_rating : Bool) : Except PErr (List RecL) :=
  let selected := selectedNodesApp env liked_movie_ids
  let user_set := likedUserSet env liked_movie_ids
  if user_set = ∅ then .ok []
  else
    let selectedSet := selected.toFinset
    let candidates :=
      if genreActive genre_filter then
        env.movieNodes.filter (fun m =>
          !(decide (m ∈ selectedSet)) &&
          decide ((genre_filter.getD "") ∈ (dictGet env.genresCache m).getD ∅))
      else env.movieNodes.filter (fun m => !(decide (m ∈ selectedSet)))
    (exFilterMapM (bodyL env user_set rating_limit algorithm prioritize_rating)
        candidates).map
      (fun results => pyTake top_n (results.mergeSort leL))

/-- get_likers_of_movie_node of src/web/app.py: computed from the graph
on every call; iterating G.neighbors of a missing node raises. -/
def likersOfE (g : Graph) (m : String) : Except PErr (Finset String) :=
  if memG g m then .ok (likersOf g m) else .error (.keyError "node not in graph")

/-- Liked-movie nodes of the liked entry point of src/web/app.py: ids
whose node name occurs in the MOVIE_NODES list, kept in input order. -/
def selectedNodesWeb (env : Env) (liked_movie_ids : List Int) : List String :=
  liked_movie_ids.filterMap (fun mid =>
    let n := movieNodeName mid
    if env.movieNodes.contains n then some n else none)

/-- Loop body of the liked entry point of src/web/app.py: genre filter
read from the graph (substring semantics), likers recomputed from the
graph, score from the intersection and the true union, RATINGS_DF-backed
average, the weaker rating filter (a None average never skips), and no
skip of empty intersections: every surviving candidate is appended. -/
def webBody (env : Env) (user_set : Finset String) (genre_filter : Option String)
    (rating_limit : ℚ) (algorithm : String) (prioritize_rating : Bool)
    (m : String) : Except PErr (Option RecL) := do
  let keep ← (if genreActive genre_filter then do
      let attrs ← nodeGetE env.G m
      match attrs.genres with
      | none => pure false
      | some gs =>
        if gs = "" then pure false else pure (substrB (genre_filter.getD "") gs)
    else pure true)
  if !keep then pure none
  else do
    let likers ← likersOfE env.G m
    let inter := user_set ∩ likers
    let uni := user_set ∪ likers
    let sc : ℚ :=
      if algorithm = "cn" then (inter.card : ℚ)
      else if 0 < uni.card then (inter.card : ℚ) / (uni.card : ℚ) else 0
    let movie_id := dictGet env.nodeToMovieId m
    let avg : Option ℚ :=
      if inter = ∅ then none
      else
        match movie_id with
        | some mid => avgFromDF env mid inter
        | none => none
    let rest : Except PErr (Option RecL) := do
      let attrs ← nodeGetE env.G m
      let final : ℚ :=
        if prioritize_rating then
          match avg with
          | some a => sc * (a / 5)
          | none => sc
        else sc
      pure (some ⟨m, movie_id, attrs.title, attrs.genres,
        (if algorithm = "jaccard" then some sc else none), inter.card, avg, final⟩)
    match avg with
    | some a => if a < rating_limit then pure none else rest
    | none => rest

/-- src/web/app.py get_recommendations_for_liked_movies: selected nodes
from MOVIE_NODES, reference user set recomputed from the graph, no
early exit on an empty reference set, candidates excluding the selected
nodes, webBody per candidate, sort by final score descending, slice. -/
def web_get_recommendations_for_liked_movies (env : Env) (liked_movie_ids : List Int)
    (top_n : Int) (genre_filter : Option String) (rating_limit : ℚ)
    (algorithm : String) (prioritize_rating : Bool) : Except PErr (List RecL) := do
  let selected := selectedNodesWeb env liked_movie_ids
  let user_set ← selected.foldlM
    (fun s n => (likersOfE env.G n).map (fun l => s ∪ l)) (∅ : Finset String)
  let candidates := env.movieNodes.filter (fun m => !(selected.contains m))
  let results ← exFilterMapM
    (webBody env user_set genre_filter rating_limit algorithm prioritize_rating) candidates
  pure (pyTake top_n (results.mergeSort leL))

/-! Concrete data used by the witnesses and counterexamples. -/

def ratingsA : List RatingRec := [⟨1, 10, 4⟩]

def moviesA : List MovieRec :=
  [⟨10, some "A", none⟩, ⟨11, some "B", none⟩, ⟨12, some "C", none⟩]

/-- Environment with one user who liked movie 10; movies 11 and 12 are
unseen candidates with no likers. -/
def envA : Env := mkEnv ratingsA ratingsA moviesA

def ratingsC : List RatingRec :=
  [⟨1, 10, 4⟩, ⟨2, 10, 4⟩, ⟨1, 11, (7:ℚ)/2⟩, ⟨2, 11, (7:ℚ)/2⟩, ⟨1, 12, 5⟩]

/-- Environment where movie 11 scores high with a low average supporter
rating while movie 12 scores lower with a high average rating. -/
def envC : Env := mkEnv ratingsC ratingsC moviesA

def moviesB : List MovieRec := [⟨1, some "A", none⟩, ⟨2, some "B", none⟩]

/-- Environment with an empty ratings table: two isolated movie nodes and
no users at all. -/
def envB : Env := mkEnv [] [] moviesB

/-- Small graph with user node u_1 and movie node m_10 both present. -/
def gC1 : Graph := (build_bipartite_graph ratingsA [⟨10, some "A", none⟩] ((7:ℚ)/2)).1

/-- Graph for the algebraic-consistency witness: u_2 is at distance 2
from u_1, and u_2 likes m_2. -/
def gC7 : Graph :=
  (build_bipartite_graph [⟨1, 1, 4⟩, ⟨2, 1, 4⟩, ⟨2, 2, 4⟩]
    [⟨1, none, none⟩, ⟨2, none, none⟩] ((7:ℚ)/2)).1

/-- Graph built from a rating whose movie id is missing from the catalog:
add_edge creates the movie endpoint with no attributes at all. -/
def gBad : Graph := (build_bipartite_graph [⟨1, 99, 4⟩] [] ((7:ℚ)/2)).1

theorem exBind_ok {α β : Type} {x : Except PErr α} {f : α → Except PErr β} {b : β}
    (h : x >>= f = .ok b) : ∃ a, x = .ok a ∧ f a = .ok b := by
  cases x with
  | error e => simp only [Bind.bind, Except.bind] at h; exact absurd h (by simp)
  | ok a => exact ⟨a, rfl, by simpa only [Bind.bind, Except.bind] using h⟩

theorem exMap_ok {α β : Type} {x : Except PErr α} {g : α → β} {b : β}
    (h : Except.map g x = .ok b) : ∃ a, x = .ok a ∧ g a = b := by
  cases x with
  | error e => exact absurd h (by simp [Except.map])
  | ok a => exact ⟨a, rfl, by simpa [Except.map] using h⟩

theorem exFilterMapM_mem {α β : Type} {f : α → Except PErr (Option β)} :
    ∀ {l : List α} {L : List β}, exFilterMapM f l = .ok L → ∀ {b : β}, b ∈ L →
      ∃ a ∈ l, f a = .ok (some b) := by
  intro l
  induction l with
  | nil =>
    intro L h b hb
    simp only [exFilterMapM] at h
    cases h
    simp at hb
  | cons a t ih =>
    intro L h b hb
    simp only [exFilterMapM] at h
    cases hfa : f a with
    | error e => rw [hfa] at h; cases h
    | ok o =>
      rw [hfa] at h
      cases o with
      | none =>
        obtain ⟨a2, ha2, hfa2⟩ := ih h hb
        exact ⟨a2, List.mem_cons_of_mem _ ha2, hfa2⟩
      | some b0 =>
        obtain ⟨L0, hL0, hcons⟩ := exMap_ok h
        cases hcons
        rcases List.mem_cons.mp hb with hb | hb
        · exact ⟨a, List.mem_cons_self _ _, by rw [hfa, hb]⟩
        · obtain ⟨a2, ha2, hfa2⟩ := ih hL0 hb
          exact ⟨a2, List.mem_cons_of_mem _ ha2, hfa2⟩

theorem exFilterMapM_mono {α β : Type} {f1 f2 : α → Except PErr (Option β)}
    (hf : ∀ a o1, f1 a = .ok o1 → ∃ o2, f2 a = .ok o2 ∧ (o2 = none ∨ o2 = o1)) :
    ∀ {l : List α} {L1 : List β}, exFilterMapM f1 l = .ok L1 →
      ∃ L2, exFilterMapM f2 l = .ok L2 ∧ L2.Sublist L1 := by
  intro l
  induction l with
  | nil =>
    intro L1 h
    simp only [exFilterMapM] at h
    cases h
    exact ⟨[], rfl, List.Sublist.refl _⟩
  | cons a t ih =>
    intro L1 h
    simp only [exFilterMapM] at h
    cases hfa : f1 a with
    | error e => rw [hfa] at h; cases h
    | ok o1 =>
      rw [hfa] at h
      obtain ⟨o2, ho2, ho2c⟩ := hf a o1 hfa
      cases o1 with
      | none =>
        obtain ⟨L2, hL2, hsub⟩ := ih h
        rcases ho2c with h2 | h2 <;> rw [h2] at ho2
        all_goals simpa [exFilterMapM, ho2, hL2] using hsub
      | some b =>
        obtain ⟨L0, hL0, hcons⟩ := exMap_ok h
        cases hcons
        obtain ⟨L2, hL2, hsub⟩ := ih hL0
        rcases ho2c with h2 | h2 <;> rw [h2] at ho2
        · exact ⟨L2, by simp [exFilterMapM, ho2, hL2], hsub.trans (List.sublist_cons_self _ _)⟩
        · exact ⟨b :: L2, by simp [exFilterMapM, ho2, hL2, Except.map], hsub.cons₂ b⟩

theorem mem_pyTake {α : Type} {n : Int} {l : List α} {a : α} (h : a ∈ pyTake n l) :
    a ∈ l := by
  unfold pyTake at h
  split at h <;> exact List.mem_of_mem_take h

theorem length_pyTake_mono {α : Type} {n : Int} {l1 l2 : List α}
    (h : l2.length ≤ l1.length) : (pyTake n l2).length ≤ (pyTake n l1).length := by
  unfold pyTake
  split <;> simp only [List.length_take]
  · omega
  · have : ((l2.length : Int) + n).toNat ≤ ((l1.length : Int) + n).toNat := by omega
    omega

theorem pyTake_zero {α : Type} {l : List α} : pyTake 0 l = [] := by
  simp [pyTake]

theorem dictGet_nil {α β : Type} [DecidableEq α] (c : α) :
    dictGet ([] : List (α × β)) c = none := rfl

theorem dictGet_dictInsert {α β : Type} [DecidableEq α] (d : List (α × β)) (k c : α) (v : β) :
    dictGet (dictInsert d k v) c = if c = k then some v else dictGet d c := by
  unfold dictInsert dictGet
  by_cases hany : d.any (fun p => decide (p.1 = k)) = true
  · rw [if_pos hany, List.find?_map]
    by_cases hck : c = k
    · subst hck
      have hfeq : ((fun p : α × β => decide (p.1 = c)) ∘ (fun p => if p.1 = c then (c, v) else p))
          = fun p : α × β => decide (p.1 = c) := by
        funext p
        by_cases hp : p.1 = c <;> simp [hp]
      rw [hfeq]
      rcases hq : List.find? (fun p : α × β => decide (p.1 = c)) d with _ | q
      · exfalso
        obtain ⟨p, hp, hpk⟩ := List.any_eq_true.mp hany
        have := List.find?_eq_none.mp hq p hp
        simp only [decide_eq_true_eq] at hpk this
        exact this hpk
      · have hq1 : q.1 = c := by simpa using List.find?_some hq
        simp [hq1]
    · rw [if_neg hck]
      have hfeq : ((fun p : α × β => decide (p.1 = c)) ∘ (fun p => if p.1 = k then (k, v) else p))
          = fun p : α × β => decide (p.1 = c) := by
        funext p
        by_cases hp : p.1 = k
        · rw [Function.comp_apply, if_pos hp, ← hp]
        · rw [Function.comp_apply, if_neg hp]
      rw [hfeq]
      rcases hq : List.find? (fun p : α × β => decide (p.1 = c)) d with _ | q
      · simp
      · have hq1 : q.1 = c := by simpa using List.find?_some hq
        have hqk : (if q.1 = k then (k, v) else q) = q := by
          rw [if_neg (by rw [hq1]; exact hck)]
        simp [hqk]
  · rw [if_neg hany, List.find?_append]
    by_cases hck : c = k
    · subst hck
      have hnone : List.find? (fun p : α × β => decide (p.1 = c)) d = none := by
        rw [List.find?_eq_none]
        intro p hp
        simp only [decide_eq_true_eq]
        intro hpc
        exact hany (List.any_eq_true.mpr ⟨p, hp, by simp [hpc]⟩)
      simp [hnone, List.find?_cons]
    · cases hq : List.find? (fun p : α × β => decide (p.1 = c)) d with
      | none =>
        have : (decide (k = c)) = false := by
          simp only [decide_eq_false_iff_not]
          exact fun h => hck h.symm
        simp [hq, List.find?_cons, this, hck]
      | some q => simp [hq, hck]

theorem dictInsert_keys {α β : Type} [DecidableEq α] (d : List (α × β)) (k : α) (v : β) :
    (dictInsert d k v).map Prod.fst =
      if k ∈ d.map Prod.fst then d.map Prod.fst else d.map Prod.fst ++ [k] := by
  unfold dictInsert
  by_cases h : k ∈ d.map Prod.fst
  · obtain ⟨p, hp, hpk⟩ := List.mem_map.mp h
    have ha : d.any (fun p => decide (p.1 = k)) = true :=
      List.any_eq_true.mpr ⟨p, hp, by simp [hpk]⟩
    rw [if_pos ha, if_pos h, List.map_map]
    apply List.map_congr_left
    intro q hq
    by_cases hqk : q.1 = k <;> simp [hqk]
  · have ha : ¬(d.any (fun p => decide (p.1 = k)) = true) := by
      intro hc
      obtain ⟨p, hp, hpk⟩ := List.any_eq_true.mp hc
      exact h (List.mem_map.mpr ⟨p, hp, by simpa using hpk⟩)
    rw [if_neg ha, if_neg h, List.map_append]
    rfl

theorem keys_foldl_dictInsert {α β : Type} [DecidableEq α] (v : α → β) :
    ∀ (l : List α) (d : List (α × β)),
      ((l.foldl (fun d m => dictInsert d m (v m)) d).map Prod.fst) =
        l.foldl (fun acc x => if x ∈ acc then acc else acc ++ [x]) (d.map Prod.fst) := by
  intro l
  induction l with
  | nil => intro d; rfl
  | cons m t ih =>
    intro d
    simp only [List.foldl_cons]
    rw [ih, dictInsert_keys]

theorem dictGet_foldl_dictInsert {α β : Type} [DecidableEq α] (v : α → β) :
    ∀ (l : List α) (d : List (α × β)) (c : α),
      dictGet (l.foldl (fun d m => dictInsert d m (v m)) d) c =
        if c ∈ l then some (v c) else dictGet d c := by
  intro l
  induction l with
  | nil => intro d c; simp
  | cons m t ih =>
    intro d c
    simp only [List.foldl_cons]
    rw [ih]
    by_cases hct : c ∈ t
    · simp [hct, List.mem_cons]
    · by_cases hcm : c = m
      · simp [hct, hcm, dictGet_dictInsert]
      · simp [hct, hcm, dictGet_dictInsert, List.mem_cons]

theorem mem_pyUnique {α : Type} [DecidableEq α] {x : α} {l : List α} :
    x ∈ pyUnique l ↔ x ∈ l := by
  have : ∀ (l : List α) (acc : List α),
      x ∈ l.foldl (fun acc y => if y ∈ acc then acc else acc ++ [y]) acc ↔ x ∈ acc ∨ x ∈ l := by
    intro l
    induction l with
    | nil => intro acc; simp
    | cons y t ih =>
      intro acc
      simp only [List.foldl_cons]
      by_cases hy : y ∈ acc
      · rw [if_pos hy, ih]
        constructor
        · rintro (h | h)
          · exact Or.inl h
          · exact Or.inr (List.mem_cons_of_mem _ h)
        · rintro (h | h)
          · exact Or.inl h
          · rcases List.mem_cons.mp h with h | h
            · exact Or.inl (h ▸ hy)
            · exact Or.inr h
      · rw [if_neg hy, ih]
        simp only [List.mem_append, List.mem_singleton, List.mem_cons]
        tauto
  unfold pyUnique
  rw [this]
  simp

theorem nodup_pyUnique {α : Type} [DecidableEq α] (l : List α) :
    (pyUnique l).Nodup := by
  have : ∀ (l : List α) (acc : List α), acc.Nodup →
      (l.foldl (fun acc y => if y ∈ acc then acc else acc ++ [y]) acc).Nodup := by
    intro l
    induction l with
    | nil => intro acc h; simpa using h
    | cons y t ih =>
      intro acc h
      simp only [List.foldl_cons]
      by_cases hy : y ∈ acc
      · rw [if_pos hy]; exact ih acc h
      · rw [if_neg hy]
        exact ih _ (by simp [List.nodup_append, h, hy])
  exact this l [] List.nodup_nil

theorem findNode_addNode (g : Graph) (n n2 : String) (a : NodeAttrs) :
    findNode (addNode g n a) n2 = if n2 = n then some a else findNode g n2 :=
  dictGet_dictInsert g.nodes n n2 a

theorem bipOf_addNode (g : Graph) (n n2 : String) (a : NodeAttrs) :
    bipOf (addNode g n a) n2 = if n2 = n then a.bipartite else bipOf g n2 := by
  unfold bipOf
  rw [findNode_addNode]
  split <;> rfl

theorem ensureNode_edges (g : Graph) (n : String) : (ensureNode g n).edges = g.edges := by
  unfold ensureNode
  split <;> rfl

theorem findNode_ensureNode_pres {g : Graph} {n2 : String} {a : NodeAttrs} (n : String)
    (h : findNode g n2 = some a) : findNode (ensureNode g n) n2 = some a := by
  unfold ensureNode
  split
  · exact h
  · unfold findNode dictGet at h ⊢
    obtain ⟨p, hp, hp2⟩ := Option.map_eq_some'.mp h
    simp only [List.find?_append, hp]
    simpa using hp2

theorem ensureNode_of_mem {g : Graph} {n : String} (h : memG g n = true) :
    ensureNode g n = g := by
  unfold ensureNode
  rw [if_pos h]

theorem findNode_addEdge_pres {g : Graph} {n2 : String} {a : NodeAttrs} (u v : String) (w : ℚ)
    (h : findNode g n2 = some a) : findNode (addEdge g u v w) n2 = some a := by
  unfold addEdge
  dsimp only
  have h1 := findNode_ensureNode_pres (g := ensureNode g u) v (findNode_ensureNode_pres u h)
  split <;> exact h1

theorem bipOf_addEdge_pres {g : Graph} {n2 : String} {b : String} (u v : String) (w : ℚ)
    (h : bipOf g n2 = some b) : bipOf (addEdge g u v w) n2 = some b := by
  unfold bipOf at h ⊢
  cases hf : findNode g n2 with
  | none => rw [hf] at h; cases h
  | some a => rw [hf] at h; rw [findNode_addEdge_pres u v w hf]; exact h

theorem addEdge_nodes_of_mem {g : Graph} {u v : String} (w : ℚ)
    (hu : memG g u = true) (hv : memG g v = true) : (addEdge g u v w).nodes = g.nodes := by
  unfold addEdge
  dsimp only
  have h1 : ensureNode (ensureNode g u) v = g := by
    rw [ensureNode_of_mem hu, ensureNode_of_mem hv]
  split <;> rw [h1]

theorem addEdge_edges_sub {g : Graph} {u v : String} {w : ℚ} {e : String × String × ℚ}
    (h : e ∈ (addEdge g u v w).edges) : e = (u, v, w) ∨ e ∈ g.edges := by
  unfold addEdge at h
  dsimp only at h
  rw [show (ensureNode (ensureNode g u) v).edges = g.edges by
    rw [ensureNode_edges, ensureNode_edges]] at h
  split at h
  · simp only [List.mem_map] at h
    obtain ⟨e0, he0, heq⟩ := h
    by_cases hs : sameEdge u v e0 = true
    · rw [if_pos hs] at heq; exact Or.inl heq.symm
    · rw [if_neg hs] at heq; exact Or.inr (heq ▸ he0)
  · rcases List.mem_append.mp h with h | h
    · exact Or.inr h
    · exact Or.inl (List.mem_singleton.mp h)

theorem memG_of_bipOf {g : Graph} {n : String} {b : String} (h : bipOf g n = some b) :
    memG g n = true := by
  unfold bipOf at h
  unfold memG
  cases hf : findNode g n with
  | none => rw [hf] at h; cases h
  | some a => rfl

theorem bipOf_foldl_addNode_hit (nameF : Int → String) (attrF : Int → NodeAttrs) (b : String)
    (hb : ∀ x, (attrF x).bipartite = some b) :
    ∀ (l : List Int) (g : Graph) (mid : Int),
      (mid ∈ l ∨ bipOf g (nameF mid) = some b) →
      bipOf (l.foldl (fun g x => addNode g (nameF x) (attrF x)) g) (nameF mid) = some b := by
  intro l
  induction l with
  | nil =>
    intro g mid h
    rcases h with h | h
    · simp at h
    · exact h
  | cons x t ih =>
    intro g mid h
    simp only [List.foldl_cons]
    apply ih
    by_cases hx : nameF mid = nameF x
    · right
      rw [bipOf_addNode, if_pos hx]
      exact hb x
    · rcases h with h | h
      · rcases List.mem_cons.mp h with h | h
        · exact absurd (h ▸ rfl) hx
        · exact Or.inl h
      · right
        rw [bipOf_addNode, if_neg hx]
        exact h

theorem bipOf_foldl_addNode_other (nameF : Int → String) (attrF : Int → NodeAttrs) :
    ∀ (l : List Int) (g : Graph) (n : String), (∀ x ∈ l, n ≠ nameF x) →
      bipOf (l.foldl (fun g x => addNode g (nameF x) (attrF x)) g) n = bipOf g n := by
  intro l
  induction l with
  | nil => intro g n _; rfl
  | cons x t ih =>
    intro g n h
    simp only [List.foldl_cons]
    rw [ih _ n (fun y hy => h y (List.mem_cons_of_mem _ hy)), bipOf_addNode,
      if_neg (h x (List.mem_cons_self _ _))]

theorem bipOf_foldl_addEdge_pres {b : String} :
    ∀ (l : List RatingRec) (g : Graph) (n : String), bipOf g n = some b →
      bipOf (l.foldl
        (fun g r => addEdge g (userNodeName r.userId) (movieNodeName r.movieId) r.rating) g)
        n = some b := by
  intro l
  induction l with
  | nil => intro g n h; exact h
  | cons r t ih =>
    intro g n h
    simp only [List.foldl_cons]
    exact ih _ n (bipOf_addEdge_pres _ _ _ h)

theorem mem_movieNodesOf_of_bip {g : Graph} {n : String}
    (h : bipOf g n = some "movie") : n ∈ movieNodesOf g := by
  unfold bipOf findNode dictGet at h
  cases hf : g.nodes.find? (fun p => decide (p.1 = n)) with
  | none => rw [hf] at h; cases h
  | some p =>
    rw [hf] at h
    simp only [Option.map_some', Option.some_bind] at h
    have hp1 : p.1 = n := by simpa using List.find?_some hf
    exact List.mem_filterMap.mpr ⟨p, List.mem_of_find?_eq_some hf, by rw [h, if_pos rfl, hp1]⟩

/-- C1 (amended): score lowercases the method name and dispatches over
exactly "jaccard" and "cn"/"common_neighbors"; every other method name,
including "rwr", raises ValueError with no computation.  There is no
"rwr" branch in the dispatcher. -/
theorem score_dispatch_amended (u m : String) (g : Graph) (method : String) :
    (method.toLower = "jaccard" → score u m g method = jaccard_2hop_score u m g) ∧
    ((method.toLower = "cn" ∨ method.toLower = "common_neighbors") →
      score u m g method = (common_neighbors_count u m g).map (fun c => (c : ℚ))) ∧
    (method.toLower ≠ "jaccard" → method.toLower ≠ "cn" →
      method.toLower ≠ "common_neighbors" →
      score u m g method =
        .error (.valueError "method must be jaccard or cn/common_neighbors")) := by
  refine ⟨fun h => ?_, fun h => ?_, fun h1 h2 h3 => ?_⟩
  · simp [score, h]
  · rcases h with h | h <;>
      simp [score, h, Except.map]
  · simp [score, h1, h2, h3]

theorem score_dispatch_amended_witness :
    score "u_1" "m_10" gC1 "rwr" =
      .error (.valueError "method must be jaccard or cn/common_neighbors") :=
  (score_dispatch_amended "u_1" "m_10" gC1 "rwr").2.2
    (by with_unfolding_all decide) (by with_unfolding_all decide)
    (by with_unfolding_all decide)

/-- C1 (counterexample): on a graph containing both nodes, the method
name "rwr" does not return a random-walk-with-restart score; it raises
ValueError, so the dispatcher does not dispatch over three method
names. -/
theorem score_rwr_rejected_counterexample :
    memG gC1 "u_1" = true ∧ memG gC1 "m_10" = true ∧
    score "u_1" "m_10" gC1 "rwr" =
      .error (.valueError "method must be jaccard or cn/common_neighbors") := by
  refine ⟨?_, ?_, ?_⟩ <;> with_unfolding_all decide

/-- C5 (amended): jaccard_2hop_score, common_neighbors_count and the
score dispatcher (with the "jaccard" method) raise KeyError whenever the
user node or the movie node is absent from the graph; batch_score raises
KeyError only for an absent user node (its candidates are not checked
this way). -/
theorem scoring_not_found_amended (g : Graph) (u m : String) (cands : List String)
    (method : String) :
    (memG g u = false ∨ memG g m = false →
      jaccard_2hop_score u m g =
        .error (.keyError "user_node or movie_node not in graph") ∧
      common_neighbors_count u m g =
        .error (.keyError "user_node or movie_node not in graph") ∧
      score u m g "jaccard" =
        .error (.keyError "user_node or movie_node not in graph")) ∧
    (memG g u = false →
      batch_score u cands g method = .error (.keyError "user_node not in graph")) := by
  constructor
  · intro h
    have hj : "jaccard".toLower = "jaccard" := by with_unfolding_all decide
    rcases h with h | h
    · exact ⟨by simp [jaccard_2hop_score, h], by simp [common_neighbors_count, h],
        by simp [score, hj, jaccard_2hop_score, h]⟩
    · exact ⟨by simp [jaccard_2hop_score, h], by simp [common_neighbors_count, h],
        by simp [score, hj, jaccard_2hop_score, h]⟩
  · intro h
    simp [batch_score, h]

theorem scoring_not_found_amended_witness :
    jaccard_2hop_score "u_1" "m_99" gC1 =
      .error (.keyError "user_node or movie_node not in graph") :=
  (((scoring_not_found_amended gC1 "u_1" "m_99" [] "cn").1
    (Or.inr (by with_unfolding_all decide)))).1

/-- C5 (counterexample): batch_score does not raise for a candidate movie
node absent from the graph; it returns a score of 0.0 for it, so batch
scoring does not fail with a not-found error on absent item nodes. -/
theorem batch_score_absent_candidate_counterexample :
    memG gC1 "m_99" = false ∧
    batch_score "u_1" ["m_99"] gC1 "jaccard" = .ok [("m_99", 0)] := by
  constructor <;> with_unfolding_all decide

/-- C9 (confirmed): every movie id of the catalog, including ids with no
positive interaction, gets a node carrying the "movie" partition in the
built graph, and that node is enumerated by the MOVIE_NODES candidate
list construction, so isolated movie nodes take part in candidate
enumeration. -/
theorem build_covers_full_catalog (ratings : List RatingRec) (movies : List MovieRec)
    (threshold : ℚ) (mid : Int) (hmid : mid ∈ movies.map (fun r => r.movieId)) :
    bipOf (build_bipartite_graph ratings movies threshold).1 (movieNodeName mid) =
      some "movie" ∧
    movieNodeName mid ∈ movieNodesOf (build_bipartite_graph ratings movies threshold).1 := by
  have h2 :
      bipOf (build_bipartite_graph ratings movies threshold).1 (movieNodeName mid) =
        some "movie" := by
    unfold build_bipartite_graph
    dsimp only
    apply bipOf_foldl_addEdge_pres
    exact bipOf_foldl_addNode_hit movieNodeName (movieAttrs movies) "movie" (fun _ => rfl) _ _
      mid (Or.inl (mem_pyUnique.mpr hmid))
  exact ⟨h2, mem_movieNodesOf_of_bip h2⟩

theorem build_covers_full_catalog_witness :
    bipOf (build_bipartite_graph [] [⟨7, none, none⟩] ((7:ℚ)/2)).1 (movieNodeName 7) =
      some "movie" ∧
    movieNodeName 7 ∈ movieNodesOf (build_bipartite_graph [] [⟨7, none, none⟩] ((7:ℚ)/2)).1 :=
  build_covers_full_catalog [] [⟨7, none, none⟩] ((7:ℚ)/2) 7 (by with_unfolding_all decide)

/-- C10 (confirmed): when the user node is in the graph, batch_score
succeeds and returns a dict with exactly one entry per distinct candidate
(keys are the candidates in first-occurrence order, without duplicates),
and every candidate absent from the graph is mapped to the score 0. -/
theorem batch_score_total_on_candidates (g : Graph) (u : String) (cands : List String)
    (method : String) (hu : memG g u = true) :
    ∃ d, batch_score u cands g method = .ok d ∧
      d.map Prod.fst = pyUnique cands ∧
      (pyUnique cands).Nodup ∧
      (∀ c, c ∈ pyUnique cands ↔ c ∈ cands) ∧
      (∀ c ∈ cands, memG g c = false → dictGet d c = some 0) := by
  refine ⟨cands.foldl
    (fun d m => dictInsert d m (batchVal g (users_2hop g u) method m)) [], ?_,
    ?_, nodup_pyUnique _, fun c => mem_pyUnique, ?_⟩
  · simp [batch_score, hu]
  · rw [keys_foldl_dictInsert]
    rfl
  · intro c hc hcg
    rw [dictGet_foldl_dictInsert, if_pos hc]
    unfold batchVal
    rw [hcg]
    rfl

theorem batch_score_total_on_candidates_witness :
    memG gC1 "u_1" = true ∧
    (∃ d, batch_score "u_1" ["m_99", "m_10"] gC1 "cn" = .ok d ∧
      d.map Prod.fst = pyUnique ["m_99", "m_10"] ∧
      (pyUnique ["m_99", "m_10"]).Nodup ∧
      (∀ c, c ∈ pyUnique ["m_99", "m_10"] ↔ c ∈ ["m_99", "m_10"]) ∧
      (∀ c ∈ ["m_99", "m_10"], memG gC1 c = false → dictGet d c = some 0)) :=
  ⟨by with_unfolding_all decide,
    batch_score_total_on_candidates gC1 "u_1" ["m_99", "m_10"] "cn"
      (by with_unfolding_all decide)⟩

/-- C7 (confirmed): on any graph containing both nodes, with U the 2-hop
user set and L the liker set, when U ∪ L is nonempty the common-neighbor
count c and the jaccard score j satisfy c = j * (|U| + |L| - c), the
algebraic consistency identity of the specification (scores modelled as
exact rationals). -/
theorem jaccard_cn_algebraic_consistency (g : Graph) (u m : String) (j : ℚ) (c : ℕ)
    (hj : jaccard_2hop_score u m g = .ok j)
    (hc : common_neighbors_count u m g = .ok c)
    (hne : (users_2hop g u ∪ likersOf g m).Nonempty) :
    (c : ℚ) = j * (((users_2hop g u).card : ℚ) + ((likersOf g m).card : ℚ) - (c : ℚ)) := by
  unfold jaccard_2hop_score at hj
  unfold common_neighbors_count at hc
  by_cases hm : (!memG g u || !memG g m) = true
  · rw [if_pos hm] at hj
    exact absurd hj (by simp)
  · rw [if_neg hm] at hj
    rw [if_neg hm] at hc
    dsimp only at hj
    set U := users_2hop g u with hU
    set L := likersOf g m with hL
    have hcval : (U ∩ L).card = c := by
      cases hc
      rfl
    have hcards := Finset.card_union_add_card_inter U L
    have hunion : 0 < (U ∪ L).card := Finset.card_pos.mpr hne
    have hsize : U.card + L.card - (U ∩ L).card = (U ∪ L).card := by omega
    rw [hsize] at hj
    rw [if_neg (by omega)] at hj
    have hj2 : j = ((U ∩ L).card : ℚ) / ((U ∪ L).card : ℚ) := by
      cases hj
      rfl
    have hle : c ≤ U.card + L.card := by omega
    have hcast : ((U.card : ℚ) + (L.card : ℚ) - (c : ℚ)) = (((U ∪ L).card : ℕ) : ℚ) := by
      rw [← hcval] at hle ⊢
      rw [← hsize]
      push_cast [Nat.cast_sub hle]
      ring
    rw [hj2, hcast, ← hcval]
    have hne0 : (((U ∪ L).card : ℕ) : ℚ) ≠ 0 := by
      exact_mod_cast Nat.pos_iff_ne_zero.mp hunion
    field_simp

theorem jaccard_cn_algebraic_consistency_witness :
    ((1 : ℕ) : ℚ) =
      (1 : ℚ) * (((users_2hop gC7 "u_1").card : ℚ) + ((likersOf gC7 "m_2").card : ℚ) -
        ((1 : ℕ) : ℚ)) :=
  jaccard_cn_algebraic_consistency gC7 "u_1" "m_2" 1 1
    (by with_unfolding_all decide) (by with_unfolding_all decide)
    (by with_unfolding_all decide)

theorem candBodyU_ok_some {env : Env} {seen : Finset String} {gf : Option String}
    {m c : String} (h : candBodyU env seen gf m = .ok (some c)) : c = m ∧ m ∉ seen := by
  unfold candBodyU at h
  by_cases hs : m ∈ seen
  · rw [if_pos hs] at h
    simp at h
  · refine ⟨?_, hs⟩
    rw [if_neg hs] at h
    split at h
    · obtain ⟨attrs, _, h2⟩ := exBind_ok h
      split at h2
      · simp [pure, Except.pure] at h2
      · split at h2
        · simp [pure, Except.pure] at h2
        · split at h2 <;> simp [pure, Except.pure] at h2
          exact h2.symm
    · simp at h
      exact h.symm

theorem bodyU_ok_some {env : Env} {u : String} {twoHop : Finset String} {m : String}
    {r : RecU} (h : bodyU env u twoHop m = .ok (some r)) : r.movie_node = m := by
  unfold bodyU at h
  obtain ⟨j, _, h2⟩ := exBind_ok h
  dsimp only at h2
  obtain ⟨attrs, _, h3⟩ := exBind_ok h2
  simp only [pure, Except.pure, Except.ok.injEq, Option.some.injEq] at h3
  rw [← h3]

theorem bodyL_ok_some {env : Env} {us : Finset String} {rl : ℚ} {alg : String}
    {pr : Bool} {m : String} {r : RecL}
    (h : bodyL env us rl alg pr m = .ok (some r)) :
    r.movie_node = m ∧ us ∩ ((dictGet env.likersCache m).getD ∅) ≠ ∅ := by
  unfold bodyL at h
  dsimp only at h
  by_cases hi : us ∩ ((dictGet env.likersCache m).getD ∅) = ∅
  · rw [if_pos hi] at h
    simp at h
  · refine ⟨?_, hi⟩
    rw [if_neg hi] at h
    split at h
    · split at h
      · exact absurd h (by simp)
      · obtain ⟨attrs, _, heq⟩ := exMap_ok h
        simp only [Option.some.injEq] at heq
        rw [← heq]
    · split at h
      · exact absurd h (by simp)
      · obtain ⟨attrs, _, heq⟩ := exMap_ok h
        simp only [Option.some.injEq] at heq
        rw [← heq]

/-- C2 (amended): with top_n equal to 0 both entry points return an empty
list whenever they return at all; a negative top_n instead follows Python
slice semantics (all but the last |top_n| records), as the counterexample
shows. -/
theorem top_n_zero_returns_empty (env : Env) (u : String) (gf gf2 : Option String)
    (liked : List Int) (rl : ℚ) (alg : String) (pr : Bool) :
    (get_recommendations_for_user_node env u 0 gf).toOption.getD [] = [] ∧
    (get_recommendations_for_liked_movies env liked 0 gf2 rl alg pr).toOption.getD [] = [] := by
  constructor
  · cases h : get_recommendations_for_user_node env u 0 gf with
    | error e => rfl
    | ok l =>
      unfold get_recommendations_for_user_node at h
      obtain ⟨_, _, h1⟩ := exBind_ok h
      try dsimp only at h1
      obtain ⟨cands, _, h2⟩ := exBind_ok h1
      try dsimp only at h2
      obtain ⟨results, _, h3⟩ := exBind_ok h2
      simp only [pure, Except.pure, Except.ok.injEq] at h3
      rw [← h3]
      simp [Except.toOption, pyTake_zero]
  · cases h : get_recommendations_for_liked_movies env liked 0 gf2 rl alg pr with
    | error e => rfl
    | ok l =>
      unfold get_recommendations_for_liked_movies at h
      dsimp only at h
      split at h
      · cases h
        rfl
      · obtain ⟨results, _, h2⟩ := exMap_ok h
        try dsimp only at h2
        rw [← h2]
        simp [Except.toOption, pyTake_zero]

/-- C2 (counterexample): top_n = -1 is ≤ 0, yet the known-user entry
point returns one record out of two candidates (the Python slice
results[:-1] drops only the last element). -/
theorem top_n_negative_nonempty_counterexample :
    ((-1 : Int) ≤ 0) ∧
    ((get_recommendations_for_user_node envA "u_1" (-1) none).toOption.getD []).length = 1 := by
  constructor
  · with_unfolding_all decide
  · with_unfolding_all decide

/-- C8 (confirmed): no record of the known-user entry point is a movie
adjacent to the querying user, and no record of the liked-movies entry
point is a movie node of the liked id list. -/
theorem recommendations_exclude_seen_and_liked (env : Env) (u : String)
    (tn tn2 : Int) (gf gf2 : Option String) (liked : List Int) (rl : ℚ)
    (alg : String) (pr : Bool) :
    (∀ l r, get_recommendations_for_user_node env u tn gf = .ok l → r ∈ l →
      r.movie_node ∉ seenMovies env u) ∧
    (∀ l r mid, get_recommendations_for_liked_movies env liked tn2 gf2 rl alg pr = .ok l →
      r ∈ l → mid ∈ liked → r.movie_node ≠ movieNodeName mid) := by
  constructor
  · intro l r h hr
    unfold get_recommendations_for_user_node at h
    obtain ⟨_, _, h1⟩ := exBind_ok h
    try dsimp only at h1
    obtain ⟨cands, hcands, h2⟩ := exBind_ok h1
    try dsimp only at h2
    obtain ⟨results, hres, h3⟩ := exBind_ok h2
    simp only [pure, Except.pure, Except.ok.injEq] at h3
    rw [← h3] at hr
    have hr2 : r ∈ results := List.mem_mergeSort.mp (mem_pyTake hr)
    obtain ⟨m, hm, hbody⟩ := exFilterMapM_mem hres hr2
    obtain ⟨m0, _, hcand⟩ := exFilterMapM_mem hcands hm
    obtain ⟨heq, hseen⟩ := candBodyU_ok_some hcand
    rw [bodyU_ok_some hbody, heq]
    exact hseen
  · intro l r mid h hr hmid
    unfold get_recommendations_for_liked_movies at h
    dsimp only at h
    split at h
    · cases h
      simp at hr
    · obtain ⟨results, hres, h2⟩ := exMap_ok h
      try dsimp only at h2
      rw [← h2] at hr
      have hr2 : r ∈ results := List.mem_mergeSort.mp (mem_pyTake hr)
      obtain ⟨m, hm, hbody⟩ := exFilterMapM_mem hres hr2
      obtain ⟨hname, hinter⟩ := bodyL_ok_some hbody
      intro hcontra
      have hmm : m = movieNodeName mid := by rw [← hname, hcontra]
      have hnotsel : m ∉ (selectedNodesApp env liked).toFinset := by
        by_cases hga : genreActive gf2 = true
        · rw [if_pos hga] at hm
          have := (List.mem_filter.mp hm).2
          simp only [Bool.and_eq_true, Bool.not_eq_true', decide_eq_false_iff_not] at this
          exact this.1
        · rw [if_neg hga] at hm
          have := (List.mem_filter.mp hm).2
          simp only [Bool.not_eq_true', decide_eq_false_iff_not] at this
          exact this
      cases hkey : dictGet env.likersCache (movieNodeName mid) with
      | some s =>
        apply hnotsel
        rw [List.mem_toFinset]
        apply List.mem_filterMap.mpr
        refine ⟨mid, hmid, ?_⟩
        rw [hmm]
        simp [hkey]
      | none =>
        apply hinter
        rw [hmm, hkey]
        simp

theorem recommendations_exclude_seen_and_liked_witness :
    (⟨"m_11", some 11, some "B", none, 0, 0, none⟩ : RecU).movie_node ∉
      seenMovies envA "u_1" :=
  (recommendations_exclude_seen_and_liked envA "u_1" 10 10 none none [] 0 "jaccard"
      false).1
    [⟨"m_11", some 11, some "B", none, 0, 0, none⟩,
      ⟨"m_12", some 12, some "C", none, 0, 0, none⟩]
    ⟨"m_11", some 11, some "B", none, 0, 0, none⟩
    (by with_unfolding_all decide) (by with_unfolding_all decide)

/-- C4 (amended): the optimized entry point of src/app.py returns an
empty list as soon as the reference user set is empty, and every returned
record has a nonempty intersection between its liker set and the
reference user set (empty intersections are skipped, never appended with
a zero score); the src/web/app.py variant does neither, as the
counterexample shows. -/
theorem liked_empty_reference_and_zero_skip (env : Env) (liked : List Int) (tn : Int)
    (gf : Option String) (rl : ℚ) (alg : String) (pr : Bool) :
    (likedUserSet env liked = ∅ →
      get_recommendations_for_liked_movies env liked tn gf rl alg pr = .ok []) ∧
    (∀ l r, get_recommendations_for_liked_movies env liked tn gf rl alg pr = .ok l →
      r ∈ l →
      likedUserSet env liked ∩ ((dictGet env.likersCache r.movie_node).getD ∅) ≠ ∅) := by
  constructor
  · intro h
    unfold get_recommendations_for_liked_movies
    dsimp only
    rw [if_pos h]
  · intro l r h hr
    unfold get_recommendations_for_liked_movies at h
    dsimp only at h
    split at h
    · cases h
      simp at hr
    · obtain ⟨results, hres, h2⟩ := exMap_ok h
      try dsimp only at h2
      rw [← h2] at hr
      have hr2 : r ∈ results := List.mem_mergeSort.mp (mem_pyTake hr)
      obtain ⟨m, hm, hbody⟩ := exFilterMapM_mem hres hr2
      obtain ⟨hname, hinter⟩ := bodyL_ok_some hbody
      rw [hname]
      exact hinter

theorem liked_empty_reference_and_zero_skip_witness :
    get_recommendations_for_liked_movies envB [1] 10 none 0 "jaccard" false = .ok [] :=
  (liked_empty_reference_and_zero_skip envB [1] 10 none 0 "jaccard" false).1
    (by with_unfolding_all decide)

/-- C4 (counterexample): in the src/web/app.py variant, with a liked
movie that has no likers the reference user set is empty, yet the result
is not the empty list: the candidate m_2, whose intersection with the
reference set is empty, is appended with a zero score. -/
theorem web_zero_score_appended_counterexample :
    likersOf envB.G "m_1" = ∅ ∧
    web_get_recommendations_for_liked_movies envB [1] 10 none 0 "jaccard" false =
      .ok [⟨"m_2", some 2, some "B", none, some 0, 0, none, 0⟩] := by
  constructor <;> with_unfolding_all decide

theorem ratingLimitSkip_mono {f1 f2 : ℚ} (hf : f1 ≤ f2) {avg : Option ℚ}
    (h : ratingLimitSkip f1 avg = true) : ratingLimitSkip f2 avg = true := by
  cases avg with
  | none =>
    simp only [ratingLimitSkip, decide_eq_true_eq] at h ⊢
    linarith
  | some a =>
    simp only [ratingLimitSkip, Bool.and_eq_true, decide_eq_true_eq] at h ⊢
    exact ⟨by linarith [h.1], by linarith [h.2]⟩

theorem bodyL_floor_mono {env : Env} {us : Finset String} {alg : String} {pr : Bool}
    {f1 f2 : ℚ} (hf : f1 ≤ f2) (m : String) :
    ∀ o1, bodyL env us f1 alg pr m = .ok o1 →
      ∃ o2, bodyL env us f2 alg pr m = .ok o2 ∧ (o2 = none ∨ o2 = o1) := by
  intro o1 h
  unfold bodyL at h ⊢
  dsimp only at h ⊢
  by_cases hi : us ∩ ((dictGet env.likersCache m).getD ∅) = ∅
  · rw [if_pos hi] at h ⊢
    exact ⟨none, rfl, Or.inl rfl⟩
  · rw [if_neg hi] at h ⊢
    by_cases hs2 :
        ratingLimitSkip f2
          (if movieIdTruthy (dictGet env.nodeToMovieId m) = true then
            avgFromLookup env ((dictGet env.nodeToMovieId m).getD 0)
              (us ∩ (dictGet env.likersCache m).getD ∅)
          else none) = true
    · rw [if_pos hs2]
      exact ⟨none, rfl, Or.inl rfl⟩
    · rw [if_neg hs2]
      have hs1 :
          ¬(ratingLimitSkip f1
            (if movieIdTruthy (dictGet env.nodeToMovieId m) = true then
              avgFromLookup env ((dictGet env.nodeToMovieId m).getD 0)
                (us ∩ (dictGet env.likersCache m).getD ∅)
            else none) = true) :=
        fun hs1 => hs2 (ratingLimitSkip_mono hf hs1)
      rw [if_neg hs1] at h
      exact ⟨o1, h, Or.inr rfl⟩

/-- C6 (amended): raising the rating floor never increases the number of
returned records (the surviving candidate list at the higher floor is a
sublist of the one at the lower floor before ranking), but after top-n
truncation the returned record set itself may gain records absent at the
lower floor, as the counterexample shows. -/
theorem rating_floor_monotone_count (env : Env) (liked : List Int) (tn : Int)
    (gf : Option String) (alg : String) (pr : Bool) (f1 f2 : ℚ) (l1 : List RecL)
    (hf : f1 ≤ f2)
    (h1 : get_recommendations_for_liked_movies env liked tn gf f1 alg pr = .ok l1) :
    ∃ l2, get_recommendations_for_liked_movies env liked tn gf f2 alg pr = .ok l2 ∧
      l2.length ≤ l1.length := by
  unfold get_recommendations_for_liked_movies at h1 ⊢
  dsimp only at h1 ⊢
  by_cases hemp : likedUserSet env liked = ∅
  · rw [if_pos hemp] at h1 ⊢
    cases h1
    exact ⟨[], rfl, le_refl _⟩
  · rw [if_neg hemp] at h1 ⊢
    obtain ⟨L1, hL1, hpy⟩ := exMap_ok h1
    obtain ⟨L2, hL2, hsub⟩ :=
      exFilterMapM_mono (fun m o1 h => bodyL_floor_mono hf m o1 h) hL1
    refine ⟨pyTake tn (L2.mergeSort leL), ?_, ?_⟩
    · rw [hL2]
      rfl
    · rw [← hpy]
      apply length_pyTake_mono
      rw [List.length_mergeSort, List.length_mergeSort]
      exact hsub.length_le

theorem rating_floor_monotone_count_witness :
    ((0 : ℚ) ≤ 4) ∧
    (∃ l2, get_recommendations_for_liked_movies envC [10] 1 none 4 "jaccard" false =
        .ok l2 ∧
      l2.length ≤
        ([⟨"m_11", some 11, some "B", none, some 1, 2, some ((7:ℚ)/2), 1⟩] :
          List RecL).length) :=
  ⟨by with_unfolding_all decide,
    rating_floor_monotone_count envC [10] 1 none "jaccard" false 0 4
      [⟨"m_11", some 11, some "B", none, some 1, 2, some ((7:ℚ)/2), 1⟩]
      (by with_unfolding_all decide) (by with_unfolding_all decide)⟩

/-- C6 (counterexample): with fixed top_n = 1, at floor 0 the result set
is the single m_11 record while at the strictly higher floor 4 it is the
single m_12 record — a record absent from the lower-floor result, so the
result set has not shrunk (it gained an element). -/
theorem rating_floor_new_record_counterexample :
    ((0 : ℚ) ≤ 4) ∧
    get_recommendations_for_liked_movies envC [10] 1 none 0 "jaccard" false =
      .ok [⟨"m_11", some 11, some "B", none, some 1, 2, some ((7:ℚ)/2), 1⟩] ∧
    get_recommendations_for_liked_movies envC [10] 1 none 4 "jaccard" false =
      .ok [⟨"m_12", some 12, some "C", none, some ((1:ℚ)/2), 1, some 5, (1:ℚ)/2⟩] ∧
    (⟨"m_12", some 12, some "C", none, some ((1:ℚ)/2), 1, some 5, (1:ℚ)/2⟩ : RecL) ∉
      ([⟨"m_11", some 11, some "B", none, some 1, 2, some ((7:ℚ)/2), 1⟩] : List RecL) := by
  refine ⟨?_, ?_, ?_, ?_⟩ <;> with_unfolding_all decide

theorem addNode_edges (g : Graph) (n : String) (a : NodeAttrs) :
    (addNode g n a).edges = g.edges := rfl

theorem foldl_addNode_edges (nameF : Int → String) (attrF : Int → NodeAttrs) :
    ∀ (l : List Int) (g : Graph),
      (l.foldl (fun g x => addNode g (nameF x) (attrF x)) g).edges = g.edges := by
  intro l
  induction l with
  | nil => intro g; rfl
  | cons x t ih =>
    intro g
    simp only [List.foldl_cons]
    rw [ih, addNode_edges]

theorem memG_congr {g g2 : Graph} (h : g.nodes = g2.nodes) (n : String) :
    memG g n = memG g2 n := by
  unfold memG findNode
  rw [h]

theorem bipOf_congr {g g2 : Graph} (h : g.nodes = g2.nodes) (n : String) :
    bipOf g n = bipOf g2 n := by
  unfold bipOf findNode
  rw [h]

theorem userNodeName_ne_movieNodeName (a b : Int) :
    userNodeName a ≠ movieNodeName b := by
  intro h
  unfold userNodeName movieNodeName at h
  have h2 : ("u_" ++ toString a).data = ("m_" ++ toString b).data := congrArg String.data h
  rw [String.data_append, String.data_append] at h2
  have hu : "u_".data = ['u', '_'] := rfl
  have hm : "m_".data = ['m', '_'] := rfl
  rw [hu, hm] at h2
  simp at h2

theorem edges_fold_bipartite (g2 : Graph) :
    ∀ (l : List RatingRec) (g : Graph),
      g.nodes = g2.nodes →
      (∀ e ∈ g.edges, bipOf g2 e.1 = some "user" ∧ bipOf g2 e.2.1 = some "movie") →
      (∀ r ∈ l, bipOf g2 (userNodeName r.userId) = some "user") →
      (∀ r ∈ l, bipOf g2 (movieNodeName r.movieId) = some "movie") →
      (l.foldl (fun g r =>
        addEdge g (userNodeName r.userId) (movieNodeName r.movieId) r.rating) g).nodes =
          g2.nodes ∧
      ∀ e ∈ (l.foldl (fun g r =>
        addEdge g (userNodeName r.userId) (movieNodeName r.movieId) r.rating) g).edges,
        bipOf g2 e.1 = some "user" ∧ bipOf g2 e.2.1 = some "movie" := by
  intro l
  induction l with
  | nil => intro g hn he _ _; exact ⟨hn, he⟩
  | cons r t ih =>
    intro g hn he hU hM
    simp only [List.foldl_cons]
    have hu : memG g (userNodeName r.userId) = true := by
      rw [memG_congr hn]
      exact memG_of_bipOf (hU r (List.mem_cons_self _ _))
    have hv : memG g (movieNodeName r.movieId) = true := by
      rw [memG_congr hn]
      exact memG_of_bipOf (hM r (List.mem_cons_self _ _))
    apply ih
    · rw [addEdge_nodes_of_mem _ hu hv]
      exact hn
    · intro e hee
      rcases addEdge_edges_sub hee with hee | hee
      · rw [hee]
        exact ⟨hU r (List.mem_cons_self _ _), hM r (List.mem_cons_self _ _)⟩
      · exact he e hee
    · exact fun x hx => hU x (List.mem_cons_of_mem _ hx)
    · exact fun x hx => hM x (List.mem_cons_of_mem _ hx)

/-- C3 (amended): provided every positively-rated movie id appears in the
catalog, every edge of the built graph joins a "user"-partition endpoint
to a "movie"-partition endpoint; and validate_graph accepts a graph
exactly when no edge has two endpoints with equal partition attributes.
When a positively-rated movie id is missing from the catalog, add_edge
creates a partition-less movie endpoint which the validator does not
detect, as the counterexample shows. -/
theorem build_bipartite_and_validator_amended (ratings : List RatingRec)
    (movies : List MovieRec) (threshold : ℚ)
    (H : ∀ r ∈ ratings, threshold ≤ r.rating →
      r.movieId ∈ movies.map (fun x => x.movieId)) :
    (∀ e ∈ (build_bipartite_graph ratings movies threshold).1.edges,
      bipOf (build_bipartite_graph ratings movies threshold).1 e.1 = some "user" ∧
      bipOf (build_bipartite_graph ratings movies threshold).1 e.2.1 = some "movie") ∧
    (∀ g : Graph, validate_graph g = .ok () ↔
      ∀ e ∈ g.edges, bipOf g e.1 ≠ bipOf g e.2.1) := by
  constructor
  · unfold build_bipartite_graph
    dsimp only
    intro e he
    set g1 := (pyUnique (ratings.map (fun r => r.userId))).foldl
      (fun g uid => addNode g (userNodeName uid) (userAttrs uid)) ⟨[], []⟩ with hg1
    set g2 := (pyUnique (movies.map (fun r => r.movieId))).foldl
      (fun g mid => addNode g (movieNodeName mid) (movieAttrs movies mid)) g1 with hg2
    have hedges2 : g2.edges = [] := by
      rw [hg2, foldl_addNode_edges, hg1, foldl_addNode_edges]
    have hU : ∀ r ∈ ratings.filter (fun r => decide (threshold ≤ r.rating)),
        bipOf g2 (userNodeName r.userId) = some "user" := by
      intro r hr
      have hr2 := List.mem_filter.mp hr
      have h1 : bipOf g1 (userNodeName r.userId) = some "user" := by
        rw [hg1]
        exact bipOf_foldl_addNode_hit userNodeName userAttrs "user" (fun _ => rfl) _ _
          r.userId (Or.inl (mem_pyUnique.mpr (List.mem_map.mpr ⟨r, hr2.1, rfl⟩)))
      rw [hg2]
      rw [bipOf_foldl_addNode_other movieNodeName (movieAttrs movies) _ g1 _
        (fun x _ => userNodeName_ne_movieNodeName r.userId x)]
      exact h1
    have hM : ∀ r ∈ ratings.filter (fun r => decide (threshold ≤ r.rating)),
        bipOf g2 (movieNodeName r.movieId) = some "movie" := by
      intro r hr
      have hr2 := List.mem_filter.mp hr
      have hthr : threshold ≤ r.rating := by simpa using hr2.2
      rw [hg2]
      exact bipOf_foldl_addNode_hit movieNodeName (movieAttrs movies) "movie"
        (fun _ => rfl) _ _ r.movieId
        (Or.inl (mem_pyUnique.mpr (H r hr2.1 hthr)))
    obtain ⟨hn3, he3⟩ := edges_fold_bipartite g2
      (ratings.filter (fun r => decide (threshold ≤ r.rating))) g2 rfl
      (by rw [hedges2]; intro e he; cases he) hU hM
    rw [bipOf_congr hn3 e.1, bipOf_congr hn3 e.2.1]
    exact he3 e he
  · intro g
    unfold validate_graph
    cases hf : g.edges.find? (fun e => decide (bipOf g e.1 = bipOf g e.2.1)) with
    | none =>
      constructor
      · intro _ e he
        simpa using List.find?_eq_none.mp hf e he
      · intro _
        rfl
    | some e =>
      constructor
      · intro h
        exact absurd h (by simp)
      · intro hall
        exfalso
        have hp : bipOf g e.1 = bipOf g e.2.1 := by simpa using List.find?_some hf
        exact hall e (List.mem_of_find?_eq_some hf) hp

theorem build_bipartite_and_validator_amended_witness :
    bipOf gC1 "u_1" = some "user" ∧ bipOf gC1 "m_10" = some "movie" :=
  (build_bipartite_and_validator_amended ratingsA [⟨10, some "A", none⟩] ((7:ℚ)/2)
      (by with_unfolding_all decide)).1
    ("u_1", "m_10", 4) (by with_unfolding_all decide)

/-- C3 (counterexample): a positive rating for movie id 99 with an empty
catalog yields an edge u_1 - m_99 whose movie endpoint carries no
partition attribute at all (violating the stated invariant), and
validate_graph accepts this graph instead of raising. -/
theorem uncataloged_movie_edge_counterexample :
    gBad.edges = [("u_1", "m_99", 4)] ∧
    bipOf gBad "m_99" = none ∧
    validate_graph gBad = .ok () := by
  refine ⟨?_, ?_, ?_⟩ <;> with_unfolding_all decide
